import Mathlib

/-!
Verification of the Teams Call Recorder extension (background coordinator,
offscreen capture worker, content-script observer) against its
natural-language specification.

The JavaScript sources are shallowly embedded as Lean definitions:

* Pure string/byte helpers (`sanitize`, `makeFilename`, `normalizeExtension`,
  `applyFormatToFilename`, `audioBufferToWavBlob`, ...) are translated
  directly.
* Stateful handlers become explicit state-passing functions.  Fallible
  browser calls (storage writes, downloads, getUserMedia, the runtime
  message channel) are modelled as `Except String _` values supplied by an
  environment record: `.ok` for a resolved promise, `.error` for a rejected
  one.  Note the Chrome semantics of `chrome.runtime.sendMessage`: the
  promise RESOLVES with whatever the receiver passed to `sendResponse`
  (even a value like `\x7b ok: false \x7d`) and only REJECTS on a
  channel-level failure (no receiver / port closed).  The embedding keeps
  that distinction: the coordinator-to-worker channel carries the worker's
  response object, and a channel failure is a separate `Except.error`.
* JavaScript numbers used as timestamps/ids are `Nat`; audio samples
  (doubles) are `ℚ` (around the clamp-and-scale path every double
  operation performed by the code is exact, so `ℚ` models it faithfully;
  NaN has no counterpart and is excluded, as in claim C10).
* JS truthiness on possibly-absent strings is modelled by `jsOr` with `""`
  standing for both the empty string and `undefined`.
-/

namespace TeamsRecorder

/-- JS `a || b` for strings (with `""` also standing for `undefined`). -/
def jsOr (a b : String) : String := if a = "" then b else a

/-! ## Byte-level helpers for the WAV encoder (offscreen worker)

`DataView.setUint32(_, n, true)` / `setUint16(_, n, true)` write the value
little-endian; the loop in `audioBufferToWavBlob` writes at strictly
increasing consecutive offsets 0,4,8,12,16,20,22,24,28,32,34,36,40,44,...
into a fresh buffer, so the whole output is faithfully modelled as the
concatenation of the individual writes. -/

/-- Little-endian bytes of a 16-bit unsigned write (`setUint16`). -/
def u16le (n : Nat) : List Nat := [n % 256, n / 256 % 256]

/-- Little-endian bytes of a 32-bit unsigned write (`setUint32`). -/
def u32le (n : Nat) : List Nat :=
  [n % 256, n / 256 % 256, n / 65536 % 256, n / 16777216 % 256]

/-- Bytes of a 16-bit signed little-endian write (`setInt16`): the value is
taken mod 2^16 (two's complement) and stored little-endian. -/
def i16le (v : Int) : List Nat := u16le ((v % 65536).toNat)

/-- `writeString(view, off, s)` stores the char codes of `s` byte by byte. -/
def asciiBytes (s : String) : List Nat := s.toList.map Char.toNat

/-- An `AudioBuffer` as consumed by `audioBufferToWavBlob`:
`getChannelData(ch)[i]` is `channelData ch i`. -/
structure AudioBuffer where
  numberOfChannels : Nat
  sampleRate : Nat
  length : Nat
  channelData : Nat → Nat → ℚ

/-- `Math.max(-1, Math.min(1, sample))`. -/
def clampSample (q : ℚ) : ℚ := max (-1) (min 1 q)

/-- The ToInteger conversion `setInt16` applies to a finite double:
truncation toward zero. -/
def jsTrunc (q : ℚ) : Int := if q < 0 then ⌈q⌉ else ⌊q⌋

/-- The integer actually stored for one sample:
`clamped < 0 ? clamped * 0x8000 : clamped * 0x7fff`, truncated by
`setInt16`.  (For the values reached here the double arithmetic is exact,
so rational arithmetic is a faithful model.) -/
def scaleSample (q : ℚ) : Int :=
  let clamped := clampSample q
  jsTrunc (if clamped < 0 then clamped * 32768 else clamped * 32767)

/-- The 44 header bytes written by `audioBufferToWavBlob` (offsets 0..43). -/
def wavHeader (numberOfChannels sampleRate dataSize : Nat) : List Nat :=
  asciiBytes "RIFF" ++ u32le (36 + dataSize) ++
  asciiBytes "WAVE" ++ asciiBytes "fmt " ++
  u32le 16 ++ u16le 1 ++ u16le numberOfChannels ++ u32le sampleRate ++
  u32le (sampleRate * (numberOfChannels * 2)) ++
  u16le (numberOfChannels * 2) ++ u16le 16 ++
  asciiBytes "data" ++ u32le dataSize

/-- The interleaved 16-bit little-endian sample bytes written after the
header (outer loop over sample index, inner loop over channels). -/
def wavSampleData (b : AudioBuffer) : List Nat :=
  ((List.range b.length).map (fun i =>
    ((List.range (min 2 b.numberOfChannels)).map (fun ch =>
      i16le (scaleSample (b.channelData ch i)))).flatten)).flatten

/-- `audioBufferToWavBlob` from the offscreen worker: header then samples. -/
def audioBufferToWavBlob (b : AudioBuffer) : List Nat :=
  let numberOfChannels := min 2 b.numberOfChannels
  let blockAlign := numberOfChannels * 2
  let dataSize := b.length * blockAlign
  wavHeader numberOfChannels b.sampleRate dataSize ++ wavSampleData b

/-! ## Filename helpers (background.js) -/

/-- Characters replaced by `_` in `sanitize` (the regex class). -/
def unsafeChar (c : Char) : Bool :=
  c = '\\' || c = '/' || c = ':' || c = '*' || c = '?' || c = '"' ||
  c = '<' || c = '>' || c = '|'

theorem dropWhile_length_le (p : Char → Bool) :
    ∀ l : List Char, (l.dropWhile p).length ≤ l.length
  | [] => le_refl _
  | c :: rest => by
    by_cases h : p c
    · simp only [List.dropWhile_cons, h, if_true, List.length_cons]
      exact Nat.le_succ_of_le (dropWhile_length_le p rest)
    · simp [List.dropWhile_cons, h]

/-- Collapse every maximal run of whitespace to a single `_`
(the `.replace` of a whitespace-run regex with an underscore). -/
def collapseWs : List Char → List Char
  | [] => []
  | c :: rest =>
    if c.isWhitespace then '_' :: collapseWs (rest.dropWhile Char.isWhitespace)
    else c :: collapseWs rest
termination_by l => l.length
decreasing_by
  · simp only [List.length_cons]
    exact Nat.lt_succ_of_le (dropWhile_length_le _ _)
  · simp

/-- `sanitize`: map filesystem-unsafe characters to `_`, collapse
whitespace runs to `_`, truncate to 80 characters. -/
def sanitize (input : String) : String :=
  ⟨(collapseWs (input.toList.map (fun c => if unsafeChar c then '_' else c))).take 80⟩

/-- `normalizeExtension`. -/
def normalizeExtension (format : String) : String :=
  if format = "wav" then "wav"
  else if format = "mp3" then "webm"
  else "webm"

/-- `String(n).padStart(2, "0")`. -/
def pad2 (n : Nat) : String :=
  let s := toString n
  if s.length < 2 then "0" ++ s else s

/-- The components of `new Date()` read by `makeFilename`
(month already includes the `+1`). -/
structure DateParts where
  yyyy : Nat
  mm : Nat
  dd : Nat
  hh : Nat
  mins : Nat
deriving DecidableEq

/-- `makeFilename(title, format, folder)` at a given wall-clock date. -/
def makeFilename (title format folder : String) (now : DateParts) : String :=
  sanitize (jsOr folder "TeamsRecordings") ++ "/Teams_" ++ toString now.yyyy ++
  "-" ++ pad2 now.mm ++ "-" ++ pad2 now.dd ++ "_" ++ pad2 now.hh ++ "-" ++
  pad2 now.mins ++ "_" ++ sanitize (jsOr title "TeamsCall") ++
  ("." ++ normalizeExtension format)

/-- Does the string match the extension regex (a dot followed by one or
more non-dot characters, at the end)?  Equivalently: reading from the end,
there is at least one non-dot character and then a dot. -/
def hasFileExt (s : String) : Bool :=
  let r := s.toList.reverse
  !(r.takeWhile (fun c => c != '.')).isEmpty &&
    decide ((r.takeWhile (fun c => c != '.')).length < r.length)

/-- The string with the regex match (last dot and everything after it)
removed. -/
def stripFileExt (s : String) : String :=
  ⟨((s.toList.reverse.dropWhile (fun c => c != '.')).drop 1).reverse⟩

/-- `applyFormatToFilename(filename, format)` from background.js. -/
def applyFormatToFilename (filename format : String) : String :=
  let ext := normalizeExtension format
  if filename = "" then "TeamsRecordings/TeamsCall" ++ ("." ++ ext)
  else if hasFileExt filename then stripFileExt filename ++ ("." ++ ext)
  else filename ++ ("." ++ ext)

/-- The characters after the last dot of a string (the whole string when
it has no dot): the extension, as a list of characters. -/
def extensionOfL (s : String) : List Char :=
  (s.toList.reverse.takeWhile (fun c => c != '.')).reverse

/-- The worker's `finalize(blob, format)` restricted to the negotiated
format it reports: `wav` converts (falling back to `webm` when the
decode/convert step fails), `mp3` always degrades to `webm`, anything
else stays `webm`. -/
def finalizeFormat (format : String) (wavConvertOk : Bool) : String :=
  if format = "wav" then (if wavConvertOk then "wav" else "webm")
  else if format = "mp3" then "webm"
  else "webm"

/-! ## Coordinator (background.js) data model -/

/-- The three values of the background `state.recordingState` field. -/
inductive RecState where
  | idle
  | recording
  | paused
deriving DecidableEq

/-- The background service worker's global `state` object. -/
structure BgState where
  callActive : Bool
  callTabId : Option Nat
  callTitle : String
  participantCount : Option Nat
  recordingState : RecState
  recordingStartedAt : Option Nat
  lastError : String
  currentFilename : String
  latestDownloadId : Option Nat
deriving DecidableEq

/-- The literal initializer of the global `state`. -/
def initialState : BgState :=
  { callActive := false, callTabId := none, callTitle := "",
    participantCount := none, recordingState := RecState.idle,
    recordingStartedAt := none, lastError := "", currentFilename := "",
    latestDownloadId := none }

/-- The persisted settings read by `startRecording`
(`DEFAULT_SETTINGS` keys; missing string values are modelled as `""`,
missing booleans by their truthiness). -/
structure Settings where
  sourceMode : String
  format : String
  folder : String
  beepOnStart : Bool
  consentAccepted : Bool
  onScreenBadge : Bool
  notes : String
deriving DecidableEq

/-- One entry of the persisted `recordings` history list. -/
structure RecordingRecord where
  id : String
  filename : String
  downloadId : Nat
  createdAt : Nat
  startedAt : Option Nat
  endedAt : Nat
  durationSec : Nat
  meetingTitle : String
  participantCount : Option Nat
  notes : String
  format : String
  folder : String
deriving DecidableEq

/-- The result value a handler resolves with (the `result` field of the
`sendResponse` object).  `undef` is JavaScript `undefined`/`null`. -/
inductive RespVal where
  | undef
  | stateOf (st : BgState)
  | recs (l : List RecordingRecord)
  | boolTrue
deriving DecidableEq

/-- The object passed to `sendResponse` by the `onMessage` listener. -/
structure JsResponse where
  ok : Bool
  result : Option RespVal
  error : Option String
deriving DecidableEq

/-- The response object the offscreen worker's listener passes to
`sendResponse`. -/
structure WorkerResponse where
  ok : Bool
  error : Option String
deriving DecidableEq

/-- The `payload` of the `OFFSCREEN_START` message, as far as the worker
reads it (the `metadata` sub-object is never read by the worker and is
omitted). -/
structure StartPayload where
  streamId : Option String
  sourceMode : String
  format : String
  beepOnStart : Bool
deriving DecidableEq

/-- `resolveTeamsTabId`: the known call tab, else the first tab returned
by the teams.microsoft.com tab query (an environment input). -/
def resolveTeamsTabId (callTabId queryTab : Option Nat) : Option Nat :=
  match callTabId with
  | some t => some t
  | none => queryTab

/-- Environment of one `startRecording` call: settings snapshot, tab
query result, and the outcome of each awaited fallible browser call.
`workerSend` is the channel to the offscreen worker: on success the
promise RESOLVES with the worker's response object (even when that
response says `ok: false`); `Except.error` is a channel-level rejection
(no receiver / port closed). -/
structure StartEnv where
  settings : Settings
  queryTab : Option Nat
  streamIdResult : Except String String
  ensureOffscreen : Except String Unit
  nowMs : Nat
  nowDate : DateParts
  notesWrite : Except String Unit
  workerSend : StartPayload → Except String WorkerResponse

/-- Output of `startRecording`: final state, resolution/rejection of the
handler, the sequence of `publishState` broadcasts (each one a state
snapshot), and the `OFFSCREEN_START` payload when the message reached the
worker. -/
structure StartResult where
  st : BgState
  result : Except String RespVal
  broadcasts : List BgState
  sentPayload : Option StartPayload

/-- The tail of `startRecording`: the `try` around the worker send.  A
resolved send (whatever response object it resolved with — the code
never inspects it) leaves the already-mutated state in place; a rejected
send runs the catch block's rollback to Idle and re-throws. -/
def startSendStep (st2 : BgState) (payload : StartPayload)
    (res : Except String WorkerResponse) : StartResult :=
  match res with
  | Except.ok _resp => ⟨st2, Except.ok RespVal.undef, [st2], some payload⟩
  | Except.error e =>
    let st3 := { st2 with
      recordingState := RecState.idle,
      recordingStartedAt := none,
      currentFilename := "" }
    ⟨st3, Except.error e, [st2, st3], some payload⟩

/-- `startRecording(notes)` from background.js, with every awaited
browser call resolved from the environment.  The state mutations, their
order, and the rollback in the catch around the worker send follow the
source line by line. -/
def startRecording (st : BgState) (env : StartEnv) (_notes : String) : StartResult :=
  if env.settings.consentAccepted = false then
    ⟨st, Except.error "Consent disclaimer must be accepted.", [], none⟩
  else if st.recordingState ≠ RecState.idle then
    ⟨st, Except.error "Recording already in progress.", [], none⟩
  else
    match resolveTeamsTabId st.callTabId env.queryTab with
    | none => ⟨st, Except.error "No active Teams call tab found.", [], none⟩
    | some tabId =>
      let st1 := { st with callTabId := some tabId }
      let sourceMode := jsOr env.settings.sourceMode "both"
      let streamIdStep : Except String (Option String) :=
        if sourceMode = "mic" then Except.ok none
        else env.streamIdResult.map some
      match streamIdStep with
      | Except.error e => ⟨st1, Except.error e, [], none⟩
      | Except.ok streamId =>
        match env.ensureOffscreen with
        | Except.error e => ⟨st1, Except.error e, [], none⟩
        | Except.ok _ =>
          let st2 := { st1 with
            recordingState := RecState.recording,
            recordingStartedAt := some env.nowMs,
            lastError := "",
            currentFilename :=
              makeFilename st1.callTitle env.settings.format
                env.settings.folder env.nowDate }
          match env.notesWrite with
          | Except.error e => ⟨st2, Except.error e, [], none⟩
          | Except.ok _ =>
            let payload : StartPayload :=
              ⟨streamId, sourceMode, env.settings.format,
               env.settings.beepOnStart⟩
            startSendStep st2 payload (env.workerSend payload)

/-- `pauseRecording`: a silent no-op unless currently recording, else
pause the worker and move to Paused. -/
def pauseRecording (st : BgState) (send : Except String Unit) :
    BgState × Except String RespVal × List BgState :=
  if st.recordingState ≠ RecState.recording then
    (st, Except.ok RespVal.undef, [])
  else
    match send with
    | Except.error e => (st, Except.error e, [])
    | Except.ok _ =>
      let st' := { st with recordingState := RecState.paused }
      (st', Except.ok RespVal.undef, [st'])

/-- `resumeRecording`: a silent no-op unless currently paused, else
resume the worker and move back to Recording. -/
def resumeRecording (st : BgState) (send : Except String Unit) :
    BgState × Except String RespVal × List BgState :=
  if st.recordingState ≠ RecState.paused then
    (st, Except.ok RespVal.undef, [])
  else
    match send with
    | Except.error e => (st, Except.error e, [])
    | Except.ok _ =>
      let st' := { st with recordingState := RecState.recording }
      (st', Except.ok RespVal.undef, [st'])

/-- `stopRecording`: no-op when idle; otherwise just commands the worker
to stop and leaves the state untouched (the transition to Idle happens in
the finalize handler). -/
def stopRecording (st : BgState) (send : Except String Unit) :
    BgState × Except String RespVal × List BgState :=
  if st.recordingState = RecState.idle then
    (st, Except.ok RespVal.undef, [])
  else
    match send with
    | Except.error e => (st, Except.error e, [])
    | Except.ok _ => (st, Except.ok RespVal.undef, [])

/-- `handleCallStatus`: record the observation, broadcast, and auto-stop
when the call ended while not idle. -/
def handleCallStatus (st : BgState) (callActive : Bool) (meetingTitle : String)
    (participantCount : Option Nat) (senderTab : Option Nat)
    (stopSend : Except String Unit) :
    BgState × Except String RespVal × List BgState :=
  let st1 := { st with
    callActive := callActive,
    callTabId := (match senderTab with
      | some t => some t
      | none => st.callTabId),
    callTitle := meetingTitle,
    participantCount := participantCount }
  if st1.callActive = false ∧ st1.recordingState ≠ RecState.idle then
    let r := stopRecording st1 stopSend
    (r.1, r.2.1, st1 :: r.2.2)
  else (st1, Except.ok RespVal.undef, [st1])

/-! ## Finalize handler (background.js `handleFinalized`) -/

/-- Environment of one `handleFinalized` call: the settings snapshot it
reads, the current wall clock, the fresh uuid, the stored history list,
and the outcome of each awaited persistence step. -/
structure FinalizeEnv where
  folder : String
  notes : String
  now : DateParts
  endedAtMs : Nat
  newId : String
  artifactSave : Except String Nat
  sidecarSave : Except String Nat
  recordingsRead : List RecordingRecord
  recordingsWrite : Except String Unit

/-- `message.format || "webm"`. -/
def finalizedFormatOf (msgFormat : String) : String := jsOr msgFormat "webm"

/-- The final filename `handleFinalized` computes: the stored
`currentFilename` (or, when empty, a freshly built fallback name) with
the extension re-derived from the finalized format. -/
def finalFilenameOf (st : BgState) (env : FinalizeEnv) (msgFormat : String) : String :=
  applyFormatToFilename
    (jsOr st.currentFilename
      (makeFilename st.callTitle (finalizedFormatOf msgFormat) env.folder env.now))
    (finalizedFormatOf msgFormat)

/-- `Math.max(0, Math.round((endedAt - (startedAt || endedAt)) / 1000))`
(JS `Math.round x` is the floor of `x + 1/2`). -/
def durationSecOf (startedAt : Option Nat) (endedAt : Nat) : Nat :=
  let diff : Int := (endedAt : Int) - ((startedAt.getD endedAt : Nat) : Int)
  (max 0 ⌊(diff : ℚ) / 1000 + 1 / 2⌋).toNat

/-- The `record` object built inside `handleFinalized`. -/
def mkFinalRecord (st : BgState) (env : FinalizeEnv) (finalFilename : String)
    (finalizedFormat : String) (downloadId : Nat) : RecordingRecord :=
  { id := env.newId,
    filename := finalFilename,
    downloadId := downloadId,
    createdAt := env.endedAtMs,
    startedAt := st.recordingStartedAt,
    endedAt := env.endedAtMs,
    durationSec := durationSecOf st.recordingStartedAt env.endedAtMs,
    meetingTitle := jsOr st.callTitle "TeamsCall",
    participantCount := st.participantCount,
    notes := env.notes,
    format := finalizedFormat,
    folder := env.folder }

deriving instance DecidableEq for Except

/-- Output of `handleFinalized`: final coordinator state, the stored
`recordings` list after the call, whether the transient notes were
cleared, the handler's resolution/rejection, and the `publishState`
broadcasts. -/
structure FinalizeOutcome where
  st : BgState
  recordings : List RecordingRecord
  notesCleared : Bool
  result : Except String RespVal
  broadcasts : List BgState
deriving DecidableEq

/-- The state reset performed by the `finally` block of
`handleFinalized`. -/
def finalizeReset (st : BgState) : BgState :=
  { st with recordingState := RecState.idle,
            recordingStartedAt := none,
            currentFilename := "" }

/-- `handleFinalized(message)`: persist artifact, sidecar JSON and the
capped history, then — in a `finally` block, so on every path — reset the
recording state to idle and broadcast.  A failing persistence step leaves
the earlier effects in place and rejects the handler. -/
def handleFinalized (st : BgState) (env : FinalizeEnv) (msgFormat : String) :
    FinalizeOutcome :=
  let finalizedFormat := finalizedFormatOf msgFormat
  let finalFilename := finalFilenameOf st env msgFormat
  match env.artifactSave with
  | Except.error e =>
    ⟨finalizeReset st, env.recordingsRead, false, Except.error e,
     [finalizeReset st]⟩
  | Except.ok downloadId =>
    let st1 := { st with latestDownloadId := some downloadId }
    let record := mkFinalRecord st env finalFilename finalizedFormat downloadId
    match env.sidecarSave with
    | Except.error e =>
      ⟨finalizeReset st1, env.recordingsRead, false, Except.error e,
       [finalizeReset st1]⟩
    | Except.ok _ =>
      match env.recordingsWrite with
      | Except.error e =>
        ⟨finalizeReset st1, env.recordingsRead, false, Except.error e,
         [finalizeReset st1]⟩
      | Except.ok _ =>
        ⟨finalizeReset st1, (record :: env.recordingsRead).take 200, true,
         Except.ok RespVal.undef, [finalizeReset st1]⟩

/-! ## The onMessage wrapper and the reachable coordinator states -/

/-- The `.then/.catch` wrapper of the `chrome.runtime.onMessage`
listener: a resolved handler answers `ok: true` with its result; a
rejected one records `lastError`, broadcasts, and answers `ok: false`
with the message. -/
def respond : BgState × Except String RespVal × List BgState →
    BgState × JsResponse × List BgState
  | (st, Except.ok v, b) => (st, ⟨true, some v, none⟩, b)
  | (st, Except.error e, b) =>
    ({ st with lastError := e }, ⟨false, none, some e⟩,
     b ++ [{ st with lastError := e }])

/-- `START_RECORDING` through the listener wrapper. -/
def onStartMessage (st : BgState) (env : StartEnv) (notes : String) :
    BgState × JsResponse × List BgState :=
  let r := startRecording st env notes
  respond (r.st, r.result, r.broadcasts)

/-- `PAUSE_RECORDING` through the listener wrapper. -/
def onPauseMessage (st : BgState) (send : Except String Unit) :
    BgState × JsResponse × List BgState :=
  respond (pauseRecording st send)

/-- `RESUME_RECORDING` through the listener wrapper. -/
def onResumeMessage (st : BgState) (send : Except String Unit) :
    BgState × JsResponse × List BgState :=
  respond (resumeRecording st send)

/-- One inbound message to the coordinator, with the environment values
its handler consumes.  These are exactly the state-touching handlers:
call-status, start, pause, resume, stop and finalize. -/
inductive CoordEvent where
  | callStatus (callActive : Bool) (meetingTitle : String)
      (participantCount : Option Nat) (senderTab : Option Nat)
      (stopSend : Except String Unit)
  | startMsg (env : StartEnv) (notes : String)
  | pauseMsg (send : Except String Unit)
  | resumeMsg (send : Except String Unit)
  | stopMsg (send : Except String Unit)
  | finalizedMsg (env : FinalizeEnv) (msgFormat : String)

/-- Project a handler outcome to the coordinator state left behind after
the listener wrapper ran (the wrapper records `lastError` on rejection). -/
def wrapState : BgState × Except String RespVal × List BgState → BgState
  | (st, Except.ok _, _) => st
  | (st, Except.error e, _) => { st with lastError := e }

/-- The coordinator state after processing one inbound message to
completion. -/
def coordStep (st : BgState) : CoordEvent → BgState
  | CoordEvent.callStatus a t pc tab send =>
    wrapState (handleCallStatus st a t pc tab send)
  | CoordEvent.startMsg env notes =>
    let r := startRecording st env notes
    wrapState (r.st, r.result, r.broadcasts)
  | CoordEvent.pauseMsg send => wrapState (pauseRecording st send)
  | CoordEvent.resumeMsg send => wrapState (resumeRecording st send)
  | CoordEvent.stopMsg send => wrapState (stopRecording st send)
  | CoordEvent.finalizedMsg env fmt =>
    let o := handleFinalized st env fmt
    wrapState (o.st, o.result, o.broadcasts)

/-- States of the coordinator reachable from the initial state by the
message handlers. -/
inductive ReachableBg : BgState → Prop where
  | init : ReachableBg initialState
  | next {st : BgState} (h : ReachableBg st) (e : CoordEvent) :
      ReachableBg (coordStep st e)

/-- The spec's state invariant: away from Idle, a start timestamp and a
non-empty current filename exist. -/
def StateInv (st : BgState) : Prop :=
  st.recordingState ≠ RecState.idle →
    st.recordingStartedAt ≠ none ∧ st.currentFilename ≠ ""

/-! ## Capture worker (offscreen document) -/

/-- The worker's module-level mutable slots.  A `Bool` field is `true`
exactly when the corresponding JS variable holds a live object rather
than `null`; `chunks` counts buffered encoded chunks. -/
structure WorkerState where
  tabStream : Bool
  micStream : Bool
  mixedStream : Bool
  audioContext : Bool
  audioDestination : Bool
  mediaRecorder : Bool
  chunks : Nat
  activeFormat : String
deriving DecidableEq

/-- The worker before any session: every slot `null`. -/
def emptyWorker : WorkerState :=
  { tabStream := false, micStream := false, mixedStream := false,
    audioContext := false, audioDestination := false, mediaRecorder := false,
    chunks := 0, activeFormat := "webm" }

/-- `cleanup()`: stop all tracks, close the context, null every slot
(`activeFormat` is not touched). -/
def cleanupWorker (w : WorkerState) : WorkerState :=
  { w with tabStream := false, micStream := false, mixedStream := false,
           audioContext := false, audioDestination := false,
           mediaRecorder := false, chunks := 0 }

/-- Environment of one `startCapture` call: the outcome of the two
`getUserMedia` acquisitions and the number of audio tracks the mixing
destination's stream reports. -/
structure CaptureEnv where
  tabAcq : Except String Unit
  micAcq : Except String Unit
  mixedTracks : Nat
deriving DecidableEq

/-- `startCapture(payload)` from the offscreen worker: unconditional
cleanup, conditional tab/mic acquisition according to the source mode
(a mic failure is fatal only in mic-only mode), audio graph build, track
check, then recorder start.  The returned `Except` is the
resolution/rejection of the worker's `handle` call; the `WorkerState` is
what the module-level slots hold afterwards (note: no cleanup runs on a
thrown acquisition error). -/
def startCapture (w : WorkerState) (env : CaptureEnv) (p : StartPayload) :
    WorkerState × Except String Unit :=
  let sourceMode := jsOr p.sourceMode "both"
  let includeSystem := sourceMode = "both" ∨ sourceMode = "system"
  let includeMic := sourceMode = "both" ∨ sourceMode = "mic"
  let w1 := { cleanupWorker w with activeFormat := jsOr p.format "webm" }
  let sys : WorkerState × Except String Unit :=
    if includeSystem then
      match p.streamId with
      | none => (w1, Except.error "System audio capture is unavailable for this tab.")
      | some _ =>
        match env.tabAcq with
        | Except.error e => (w1, Except.error e)
        | Except.ok _ => ({ w1 with tabStream := true }, Except.ok ())
    else (w1, Except.ok ())
  match sys with
  | (w2, Except.error e) => (w2, Except.error e)
  | (w2, Except.ok _) =>
    let mic : WorkerState × Except String Unit :=
      if includeMic then
        match env.micAcq with
        | Except.ok _ => ({ w2 with micStream := true }, Except.ok ())
        | Except.error _ =>
          if includeSystem then ({ w2 with micStream := false }, Except.ok ())
          else ({ w2 with micStream := false },
                Except.error "Microphone permission is required for mic-only recording.")
      else (w2, Except.ok ())
    match mic with
    | (w3, Except.error e) => (w3, Except.error e)
    | (w3, Except.ok _) =>
      let w4 := { w3 with audioContext := true, audioDestination := true,
                          mixedStream := true }
      if env.mixedTracks = 0 then
        (w4, Except.error "No audio source available for recording.")
      else
        ({ w4 with chunks := 0, mediaRecorder := true }, Except.ok ())

/-- The worker's onMessage listener wrapper: resolve or reject of
`handle` becomes the response object sent back over the channel. -/
def workerRespond : WorkerState × Except String Unit → WorkerState × WorkerResponse
  | (w, Except.ok _) => (w, ⟨true, none⟩)
  | (w, Except.error e) => (w, ⟨false, some e⟩)

/-- Coordinator `startRecording` composed with the real offscreen worker
behind a healthy message channel: the channel RESOLVES with the worker's
response object, whatever its `ok` field says.  Returns the coordinator
state, the worker state and the response the original caller of
`START_RECORDING` receives. -/
def startComposed (st : BgState) (w : WorkerState) (env : StartEnv)
    (wenv : CaptureEnv) (notes : String) :
    BgState × WorkerState × JsResponse :=
  let env' := { env with
    workerSend := fun p => Except.ok (workerRespond (startCapture w wenv p)).2 }
  let r := startRecording st env' notes
  let w' := match r.sentPayload with
    | none => w
    | some p => (workerRespond (startCapture w wenv p)).1
  match r.result with
  | Except.ok v => (r.st, w', ⟨true, some v, none⟩)
  | Except.error e => ({ r.st with lastError := e }, w', ⟨false, none, some e⟩)

/-! ## Observer (content script) call detection -/

/-- A transient call observation: the three fields compared between
polls. -/
structure CallObservation where
  callActive : Bool
  meetingTitle : String
  participantCount : Option Nat
deriving DecidableEq

/-- The DOM/URL facts one poll of `pollCallState` reads: the text content
of the first title element found (if any), the document title, the text
of the participants-count element (if any), the two URL path checks, and
the presence of each in-call control selector. -/
structure PageSnapshot where
  meetingTitleText : Option String
  docTitle : String
  participantText : Option String
  urlHasMeetupJoin : Bool
  urlHasMeeting : Bool
  hasCallEndControl : Bool
  hasLeaveControl : Bool
  hasHangUpControl : Bool
  hasToggleVideoControl : Bool
deriving DecidableEq

/-- `detectCallActive()`: URL contains a meeting path segment, or any of
the four in-call UI controls is present. -/
def detectCallActive (p : PageSnapshot) : Bool :=
  p.urlHasMeetupJoin || p.urlHasMeeting || p.hasCallEndControl ||
  p.hasLeaveControl || p.hasHangUpControl || p.hasToggleVideoControl

/-- The first maximal run of digits in the text, if any (the regex
match). -/
def firstDigitRun : List Char → Option (List Char)
  | [] => none
  | c :: rest =>
    if c.isDigit then some (c :: rest.takeWhile Char.isDigit)
    else firstDigitRun rest

/-- `Number` applied to a digit string. -/
def digitsToNat (l : List Char) : Nat :=
  l.foldl (fun n c => 10 * n + (c.toNat - 48)) 0

/-- `parseParticipantCount(text)`. -/
def parseParticipantCount (s : String) : Option Nat :=
  (firstDigitRun s.toList).map digitsToNat

/-- JS `String.prototype.trim`: strip whitespace from both ends. -/
def jsTrim (s : String) : String :=
  ⟨((s.toList.dropWhile Char.isWhitespace).reverse.dropWhile
      Char.isWhitespace).reverse⟩

/-- The fresh `CallObservation` one poll computes from the page. -/
def computeObservation (p : PageSnapshot) : CallObservation :=
  { callActive := detectCallActive p,
    meetingTitle :=
      jsTrim (jsOr (p.meetingTitleText.getD "") (jsOr p.docTitle "TeamsCall")),
    participantCount := parseParticipantCount (p.participantText.getD "") }

/-- The content script's module-level `state`. -/
structure ContentState where
  callActive : Bool
  meetingTitle : String
  participantCount : Option Nat
  recordingState : String
  panelEnabled : Bool
deriving DecidableEq

/-- `pollCallState()`: compute the fresh observation; when all three
fields equal the stored ones, return immediately (no render, no
message); otherwise store them, re-render, and send a
`CALL_STATUS_UPDATE` carrying the observation.  The second component is
the outbound message payload (if any), the third whether `renderPanel`
ran. -/
def pollCallState (p : PageSnapshot) (st : ContentState) :
    ContentState × Option CallObservation × Bool :=
  let obs := computeObservation p
  let changed := obs.callActive ≠ st.callActive ∨
    obs.meetingTitle ≠ st.meetingTitle ∨
    obs.participantCount ≠ st.participantCount
  if changed then
    ({ st with callActive := obs.callActive,
               meetingTitle := obs.meetingTitle,
               participantCount := obs.participantCount },
     some obs, true)
  else (st, none, false)

/-! ## Helper lemmas -/

theorem toList_append (a b : String) : (a ++ b).toList = a.toList ++ b.toList := by
  cases a
  cases b
  rfl

theorem takeWhile_ne_append_dot (l1 l2 : List Char) (h : ∀ c ∈ l1, c ≠ '.') :
    (l1 ++ '.' :: l2).takeWhile (fun c => c != '.') = l1 := by
  induction l1 with
  | nil => simp [List.takeWhile_cons]
  | cons a as ih =>
    have ha : (a != '.') = true := by
      simpa using h a (List.mem_cons_self a as)
    simp only [List.cons_append, List.takeWhile_cons, ha, if_true]
    rw [ih (fun c hc => h c (List.mem_cons_of_mem a hc))]

theorem extensionOfL_append (b e : String) (h : ∀ c ∈ e.toList, c ≠ '.') :
    extensionOfL (b ++ ("." ++ e)) = e.toList := by
  unfold extensionOfL
  rw [toList_append, toList_append]
  rw [show ("." : String).toList = ['.'] from rfl]
  rw [List.reverse_append, List.reverse_append]
  rw [show (['.'] : List Char).reverse = ['.'] from rfl]
  rw [List.append_assoc, List.singleton_append]
  rw [takeWhile_ne_append_dot _ _ (fun c hc => h c (List.mem_reverse.mp hc))]
  exact List.reverse_reverse _

theorem normalizeExtension_no_dot (format : String) :
    ∀ c ∈ (normalizeExtension format).toList, c ≠ '.' := by
  unfold normalizeExtension
  split
  · decide
  · split
    · decide
    · decide

theorem applyFormat_ext (f fmt : String) :
    extensionOfL (applyFormatToFilename f fmt) =
      (normalizeExtension fmt).toList := by
  unfold applyFormatToFilename
  split
  · exact extensionOfL_append _ _ (normalizeExtension_no_dot fmt)
  · split
    · exact extensionOfL_append _ _ (normalizeExtension_no_dot fmt)
    · exact extensionOfL_append _ _ (normalizeExtension_no_dot fmt)

theorem finalizeFormat_ne_empty (requested : String) (convertOk : Bool) :
    finalizedFormatOf (finalizeFormat requested convertOk) =
      finalizeFormat requested convertOk := by
  unfold finalizeFormat finalizedFormatOf jsOr
  split
  · split
    · rfl
    · rfl
  · split
    · rfl
    · rfl

theorem asciiBytes_length (s : String) : (asciiBytes s).length = s.length := by
  unfold asciiBytes
  rw [List.length_map]
  rfl

theorem wavHeader_length (a b c : Nat) : (wavHeader a b c).length = 44 := by
  simp only [wavHeader, List.length_append, asciiBytes_length, u32le, u16le,
    List.length_cons, List.length_nil]
  decide

theorem flatten_length_const {α : Type} (k : Nat) :
    ∀ L : List (List α), (∀ l ∈ L, l.length = k) →
      L.flatten.length = L.length * k
  | [], _ => by simp
  | l :: L, h => by
    simp only [List.flatten_cons, List.length_append, List.length_cons]
    rw [h l (List.mem_cons_self l L),
      flatten_length_const k L (fun x hx => h x (List.mem_cons_of_mem l hx))]
    ring

theorem wavSampleData_length (b : AudioBuffer) :
    (wavSampleData b).length = b.length * min 2 b.numberOfChannels * 2 := by
  unfold wavSampleData
  rw [flatten_length_const (min 2 b.numberOfChannels * 2)]
  · rw [List.length_map, List.length_range, Nat.mul_assoc]
  · intro l hl
    simp only [List.mem_map] at hl
    obtain ⟨i, _, rfl⟩ := hl
    rw [flatten_length_const 2]
    · rw [List.length_map, List.length_range]
    · intro x hx
      simp only [List.mem_map] at hx
      obtain ⟨ch, _, rfl⟩ := hx
      rfl

/-! ## Claim theorems -/

/-- C6: a recording finalized with requested format "mp3" is reported by
the worker's finalize as "webm", the coordinator's final filename then
carries extension ".webm", and in general the extension of the final
filename is the one derived from the negotiated format the worker
returned, never from the requested format. -/
theorem mp3_requests_yield_webm_extension (st : BgState) (env : FinalizeEnv)
    (requested : String) (convertOk : Bool) :
    finalizeFormat "mp3" convertOk = "webm" ∧
    extensionOfL (finalFilenameOf st env (finalizeFormat "mp3" convertOk)) =
      "webm".toList ∧
    extensionOfL (finalFilenameOf st env (finalizeFormat requested convertOk)) =
      (normalizeExtension (finalizeFormat requested convertOk)).toList := by
  refine ⟨rfl, ?_, ?_⟩
  · show extensionOfL (finalFilenameOf st env "webm") = "webm".toList
    unfold finalFilenameOf
    rw [applyFormat_ext]
    decide
  · unfold finalFilenameOf
    rw [applyFormat_ext, finalizeFormat_ne_empty]

/-- C7: for a decoded audio buffer with s samples, c channels (capped at
2) and sample rate r, the WAV encoder outputs exactly 44 + s*min(2,c)*2
bytes; the first 44 bytes are the canonical RIFF/WAVE header ("RIFF",
chunk size 36+dataSize, "WAVE", "fmt " of size 16, PCM format 1, channel
count, sample rate, byte rate r*blockAlign, block align, 16 bits per
sample, "data", dataSize = s*min(2,c)*2); the remaining bytes are the
16-bit little-endian samples. -/
theorem wav_blob_canonical_layout (b : AudioBuffer) :
    (audioBufferToWavBlob b).length =
      44 + b.length * min 2 b.numberOfChannels * 2 ∧
    (audioBufferToWavBlob b).take 44 =
      asciiBytes "RIFF" ++
      u32le (36 + b.length * (min 2 b.numberOfChannels * 2)) ++
      asciiBytes "WAVE" ++ asciiBytes "fmt " ++
      u32le 16 ++ u16le 1 ++ u16le (min 2 b.numberOfChannels) ++
      u32le b.sampleRate ++
      u32le (b.sampleRate * (min 2 b.numberOfChannels * 2)) ++
      u16le (min 2 b.numberOfChannels * 2) ++ u16le 16 ++
      asciiBytes "data" ++
      u32le (b.length * (min 2 b.numberOfChannels * 2)) ∧
    (audioBufferToWavBlob b).drop 44 = wavSampleData b := by
  have e1 : audioBufferToWavBlob b =
      wavHeader (min 2 b.numberOfChannels) b.sampleRate
        (b.length * (min 2 b.numberOfChannels * 2)) ++ wavSampleData b := rfl
  refine ⟨?_, ?_, ?_⟩
  · rw [e1, List.length_append, wavHeader_length, wavSampleData_length]
  · rw [e1, ← wavHeader_length (min 2 b.numberOfChannels) b.sampleRate
      (b.length * (min 2 b.numberOfChannels * 2)), List.take_left]
    rfl
  · rw [e1, ← wavHeader_length (min 2 b.numberOfChannels) b.sampleRate
      (b.length * (min 2 b.numberOfChannels * 2)), List.drop_left]

/-- C10: each 16-bit sample value the WAV encoder writes is in range:
the sample is clamped to [-1,1], a negative clamp is scaled by 0x8000
and a non-negative one by 0x7fff, so every written value lies in
[-32768, 32767], with -1 mapping to -32768 and +1 to 32767. -/
theorem wav_sample_write_in_range (q : ℚ) :
    (-32768 ≤ scaleSample q ∧ scaleSample q ≤ 32767) ∧
    scaleSample (-1) = -32768 ∧ scaleSample 1 = 32767 := by
  refine ⟨?_, ?_, ?_⟩
  · have h1 : (-1 : ℚ) ≤ clampSample q := le_max_left _ _
    have h2 : clampSample q ≤ 1 := max_le (by norm_num) (min_le_left _ _)
    simp only [scaleSample, jsTrunc]
    by_cases hc : clampSample q < 0
    · rw [if_pos hc]
      have hs : clampSample q * 32768 < 0 :=
        mul_neg_of_neg_of_pos hc (by norm_num)
      rw [if_pos hs]
      constructor
      · have hle : ((-32768 : ℤ) : ℚ) ≤ clampSample q * 32768 := by
          push_cast
          nlinarith
        calc (-32768 : ℤ) = ⌈((-32768 : ℤ) : ℚ)⌉ := (Int.ceil_intCast _).symm
          _ ≤ ⌈clampSample q * 32768⌉ := Int.ceil_mono hle
      · have h0 : ⌈clampSample q * 32768⌉ ≤ 0 :=
          Int.ceil_le.mpr (by push_cast; linarith)
        omega
    · rw [if_neg hc]
      push_neg at hc
      have hs : ¬ clampSample q * 32767 < 0 := by nlinarith
      rw [if_neg hs]
      constructor
      · have h0 : (0 : ℤ) ≤ ⌊clampSample q * 32767⌋ :=
          Int.floor_nonneg.mpr (by nlinarith)
        omega
      · have hle : clampSample q * 32767 ≤ ((32767 : ℤ) : ℚ) := by
          push_cast
          nlinarith
        calc ⌊clampSample q * 32767⌋ ≤ ⌊((32767 : ℤ) : ℚ)⌋ := Int.floor_mono hle
          _ = 32767 := Int.floor_intCast _
  · have h1 : clampSample (-1) = -1 := by
      unfold clampSample
      norm_num
    simp only [scaleSample]
    rw [h1]
    norm_num [jsTrunc]
    rw [show ((-32768 : ℚ)) = ((-32768 : ℤ) : ℚ) by norm_num, Int.ceil_intCast]
  · have h1 : clampSample 1 = 1 := by
      unfold clampSample
      norm_num
    simp only [scaleSample]
    rw [h1]
    norm_num [jsTrunc]

/-- C1: a RECORDING_FINALIZED message processed while the coordinator is
Recording or Paused always leaves recordingState idle, recordingStartedAt
null and currentFilename empty, and broadcasts that reset state — on the
success path and on every persistence-failure path alike (the reset sits
in a finally block). -/
theorem finalize_always_resets_to_idle (st : BgState) (env : FinalizeEnv)
    (msgFormat : String)
    (_h : st.recordingState = RecState.recording ∨
      st.recordingState = RecState.paused) :
    (handleFinalized st env msgFormat).st.recordingState = RecState.idle ∧
    (handleFinalized st env msgFormat).st.recordingStartedAt = none ∧
    (handleFinalized st env msgFormat).st.currentFilename = "" ∧
    (handleFinalized st env msgFormat).broadcasts =
      [(handleFinalized st env msgFormat).st] := by
  unfold handleFinalized
  cases hA : env.artifactSave with
  | error e => simp [finalizeReset]
  | ok d =>
    cases hS : env.sidecarSave with
    | error e => simp [finalizeReset]
    | ok s =>
      cases hW : env.recordingsWrite with
      | error e => simp [finalizeReset]
      | ok u => simp [finalizeReset]

/-- A coordinator state in the middle of a recording, used to instantiate
the finalize theorems. -/
def stRec : BgState :=
  { initialState with
    callActive := true, callTabId := some 3, callTitle := "Standup",
    recordingState := RecState.recording, recordingStartedAt := some 111,
    currentFilename := "TeamsRecordings/Teams_x.webm" }

/-- A finalize environment whose artifact save rejects. -/
def envFinFail : FinalizeEnv :=
  { folder := "TeamsRecordings", notes := "n", now := ⟨2026, 1, 2, 3, 4⟩,
    endedAtMs := 222, newId := "uuid-1",
    artifactSave := Except.error "downloads.download failed",
    sidecarSave := Except.ok 0, recordingsRead := [],
    recordingsWrite := Except.ok () }

theorem finalize_always_resets_to_idle_witness :
    (stRec.recordingState = RecState.recording ∨
      stRec.recordingState = RecState.paused) ∧
    ((handleFinalized stRec envFinFail "webm").st.recordingState = RecState.idle ∧
     (handleFinalized stRec envFinFail "webm").st.recordingStartedAt = none ∧
     (handleFinalized stRec envFinFail "webm").st.currentFilename = "" ∧
     (handleFinalized stRec envFinFail "webm").broadcasts =
       [(handleFinalized stRec envFinFail "webm").st]) :=
  ⟨Or.inl rfl, finalize_always_resets_to_idle stRec envFinFail "webm" (Or.inl rfl)⟩

/-- C9: when all persistence steps of a finalize succeed, the stored
recordings list afterwards is the new record consed onto the previous
list, truncated at 200 entries from the end: the new record sits at index
0 and the length never exceeds 200. -/
theorem finalize_history_newest_first_capped (st : BgState) (env : FinalizeEnv)
    (msgFormat : String) (d s : Nat)
    (ha : env.artifactSave = Except.ok d)
    (hs : env.sidecarSave = Except.ok s)
    (hw : env.recordingsWrite = Except.ok ()) :
    (handleFinalized st env msgFormat).recordings =
      (mkFinalRecord st env (finalFilenameOf st env msgFormat)
        (finalizedFormatOf msgFormat) d :: env.recordingsRead).take 200 ∧
    (handleFinalized st env msgFormat).recordings.head? =
      some (mkFinalRecord st env (finalFilenameOf st env msgFormat)
        (finalizedFormatOf msgFormat) d) ∧
    (handleFinalized st env msgFormat).recordings.length ≤ 200 := by
  have hred : (handleFinalized st env msgFormat).recordings =
      (mkFinalRecord st env (finalFilenameOf st env msgFormat)
        (finalizedFormatOf msgFormat) d :: env.recordingsRead).take 200 := by
    unfold handleFinalized
    rw [ha, hs, hw]
  refine ⟨hred, ?_, ?_⟩
  · rw [hred, show (200 : Nat) = 199 + 1 from rfl, List.take_succ_cons]
    rfl
  · rw [hred, List.length_take]
    exact min_le_left _ _

/-- A finalize environment in which every persistence step succeeds. -/
def envFinOk : FinalizeEnv :=
  { folder := "TeamsRecordings", notes := "", now := ⟨2026, 1, 2, 3, 4⟩,
    endedAtMs := 222, newId := "uuid-2",
    artifactSave := Except.ok 5, sidecarSave := Except.ok 6,
    recordingsRead := [], recordingsWrite := Except.ok () }

theorem finalize_history_newest_first_capped_witness :
    (envFinOk.artifactSave = Except.ok 5 ∧ envFinOk.sidecarSave = Except.ok 6 ∧
      envFinOk.recordingsWrite = Except.ok ()) ∧
    ((handleFinalized stRec envFinOk "webm").recordings =
      (mkFinalRecord stRec envFinOk (finalFilenameOf stRec envFinOk "webm")
        (finalizedFormatOf "webm") 5 :: envFinOk.recordingsRead).take 200 ∧
     (handleFinalized stRec envFinOk "webm").recordings.head? =
      some (mkFinalRecord stRec envFinOk (finalFilenameOf stRec envFinOk "webm")
        (finalizedFormatOf "webm") 5) ∧
     (handleFinalized stRec envFinOk "webm").recordings.length ≤ 200) :=
  ⟨⟨rfl, rfl, rfl⟩,
   finalize_history_newest_first_capped stRec envFinOk "webm" 5 6 rfl rfl rfl⟩

/-- A start environment whose persisted settings have the consent flag
cleared; everything else would succeed. -/
def envNoConsent : StartEnv :=
  { settings :=
      { sourceMode := "both", format := "webm",
        folder := "TeamsRecordings", beepOnStart := true,
        consentAccepted := false, onScreenBadge := true, notes := "" },
    queryTab := some 1, streamIdResult := Except.ok "sid",
    ensureOffscreen := Except.ok (), nowMs := 5, nowDate := ⟨2026, 1, 2, 3, 4⟩,
    notesWrite := Except.ok (),
    workerSend := fun _ => Except.ok ⟨true, none⟩ }

/-- C4 counterexample: a START_RECORDING received without consent does
fail with an error response, but the handled state is NOT unchanged — the
listener's catch writes the error message into lastError, so the claim's
"every field (including lastError) is unchanged" is false at this
input. -/
theorem start_without_consent_counterexample :
    (onStartMessage initialState envNoConsent "").2.1.ok = false ∧
    (onStartMessage initialState envNoConsent "").1 ≠ initialState := by
  constructor
  · rfl
  · decide

/-- C4 (amended): a START_RECORDING received while consent is not
accepted fails with the precondition error response, every field of the
coordinator state other than lastError is unchanged, and lastError is set
to the precondition error message. -/
theorem start_without_consent_amended (st : BgState) (env : StartEnv)
    (notes : String) (h : env.settings.consentAccepted = false) :
    onStartMessage st env notes =
      ({ st with lastError := "Consent disclaimer must be accepted." },
       ⟨false, none, some "Consent disclaimer must be accepted."⟩,
       [{ st with lastError := "Consent disclaimer must be accepted." }]) := by
  unfold onStartMessage startRecording
  rw [h]
  simp [respond]

theorem start_without_consent_amended_witness :
    (envNoConsent.settings.consentAccepted = false) ∧
    onStartMessage initialState envNoConsent "" =
      ({ initialState with lastError := "Consent disclaimer must be accepted." },
       ⟨false, none, some "Consent disclaimer must be accepted."⟩,
       [{ initialState with lastError := "Consent disclaimer must be accepted." }]) :=
  ⟨rfl, start_without_consent_amended initialState envNoConsent "" rfl⟩

/-- C5 counterexample: a PAUSE_RECORDING received while idle (so not
Recording) and a RESUME_RECORDING received while idle (so not Paused)
both resolve with an ok response — not the error response the claim
asserts. -/
theorem pause_resume_precondition_counterexample :
    (onPauseMessage initialState (Except.ok ())).2.1 =
      ⟨true, some RespVal.undef, none⟩ ∧
    (onResumeMessage initialState (Except.ok ())).2.1 =
      ⟨true, some RespVal.undef, none⟩ := by
  constructor
  · rfl
  · rfl

/-- C5 (amended): a PAUSE_RECORDING received while not Recording, and a
RESUME_RECORDING received while not Paused, are silent no-ops: the caller
receives a success response with an undefined result, no state change
occurs and nothing is broadcast. -/
theorem pause_resume_precondition_amended (st : BgState)
    (send : Except String Unit) :
    (st.recordingState ≠ RecState.recording →
      onPauseMessage st send = (st, ⟨true, some RespVal.undef, none⟩, [])) ∧
    (st.recordingState ≠ RecState.paused →
      onResumeMessage st send = (st, ⟨true, some RespVal.undef, none⟩, [])) := by
  constructor
  · intro h
    unfold onPauseMessage pauseRecording
    rw [if_pos h]
    rfl
  · intro h
    unfold onResumeMessage resumeRecording
    rw [if_pos h]
    rfl

theorem pause_resume_precondition_amended_witness :
    onPauseMessage initialState (Except.ok ()) =
      (initialState, ⟨true, some RespVal.undef, none⟩, []) ∧
    onResumeMessage initialState (Except.ok ()) =
      (initialState, ⟨true, some RespVal.undef, none⟩, []) :=
  ⟨(pause_resume_precondition_amended initialState (Except.ok ())).1 (by decide),
   (pause_resume_precondition_amended initialState (Except.ok ())).2 (by decide)⟩

/-- C8: a poll whose freshly computed observation equals the stored one
in all three fields returns before rendering or messaging: repeated polls
of an unchanged page send no CALL_STATUS_UPDATE and perform no
re-render. -/
theorem poll_unchanged_sends_nothing (p : PageSnapshot) (st : ContentState)
    (h1 : (computeObservation p).callActive = st.callActive)
    (h2 : (computeObservation p).meetingTitle = st.meetingTitle)
    (h3 : (computeObservation p).participantCount = st.participantCount) :
    pollCallState p st = (st, none, false) := by
  simp [pollCallState, h1, h2, h3]

/-- A page snapshot with no call indicators, no title elements and no
participant counter. -/
def pageQuiet : PageSnapshot :=
  { meetingTitleText := none, docTitle := "", participantText := none,
    urlHasMeetupJoin := false, urlHasMeeting := false,
    hasCallEndControl := false, hasLeaveControl := false,
    hasHangUpControl := false, hasToggleVideoControl := false }

/-- Content-script state that already stores exactly the observation
`pageQuiet` yields. -/
def contentIdle : ContentState :=
  { callActive := false, meetingTitle := "TeamsCall",
    participantCount := none, recordingState := "idle",
    panelEnabled := true }

theorem poll_unchanged_sends_nothing_witness :
    ((computeObservation pageQuiet).callActive = contentIdle.callActive ∧
     (computeObservation pageQuiet).meetingTitle = contentIdle.meetingTitle ∧
     (computeObservation pageQuiet).participantCount =
       contentIdle.participantCount) ∧
    pollCallState pageQuiet contentIdle = (contentIdle, none, false) :=
  ⟨⟨by decide, by decide, by decide⟩,
   poll_unchanged_sends_nothing pageQuiet contentIdle
     (by decide) (by decide) (by decide)⟩

/-- Settings for a mic-only recording session with consent given. -/
def settingsMic : Settings :=
  { sourceMode := "mic", format := "webm", folder := "TeamsRecordings",
    beepOnStart := false, consentAccepted := true, onScreenBadge := true,
    notes := "" }

/-- A start environment in which every coordinator-side browser call
succeeds (the worker channel value is overridden by `startComposed`). -/
def envMicStart : StartEnv :=
  { settings := settingsMic, queryTab := some 7,
    streamIdResult := Except.ok "sid", ensureOffscreen := Except.ok (),
    nowMs := 1700000000000, nowDate := ⟨2026, 1, 2, 3, 4⟩,
    notesWrite := Except.ok (),
    workerSend := fun _ => Except.ok ⟨true, none⟩ }

/-- A capture environment where microphone acquisition is denied. -/
def wenvMicDenied : CaptureEnv :=
  { tabAcq := Except.ok (),
    micAcq := Except.error "NotAllowedError: Permission denied",
    mixedTracks := 1 }

/-- C3, evaluated at the failing input (sourceMode "mic", microphone
acquisition denied): the worker does throw and tears nothing open — its
response over the channel is ok:false with the explicit error and every
capture-session slot stays null — but the channel RESOLVES with that
response object and `startRecording` never inspects it, so its rollback
catch does not run: the coordinator stays in Recording and the original
caller receives an ok response.  The claim's propagate-and-rollback
behaviour is therefore absent from the code. -/
theorem mic_failure_not_propagated_eval :
    (workerRespond (startCapture emptyWorker wenvMicDenied
        ⟨none, "mic", "webm", false⟩)).2 =
      ⟨false, some "Microphone permission is required for mic-only recording."⟩ ∧
    (startComposed initialState emptyWorker envMicStart wenvMicDenied "").2.1 =
      { tabStream := false, micStream := false, mixedStream := false,
        audioContext := false, audioDestination := false,
        mediaRecorder := false, chunks := 0, activeFormat := "webm" } ∧
    (startComposed initialState emptyWorker envMicStart wenvMicDenied
        "").1.recordingState = RecState.recording ∧
    (startComposed initialState emptyWorker envMicStart wenvMicDenied "").2.2 =
      ⟨true, some RespVal.undef, none⟩ := by
  refine ⟨by decide, by decide, by decide, by decide⟩

/-! ## The coordinator state invariant (C2) -/

theorem makeFilename_ne_empty (t f fo : String) (d : DateParts) :
    makeFilename t f fo d ≠ "" := by
  intro h
  have h2 := congrArg String.length h
  unfold makeFilename at h2
  simp only [String.length_append] at h2
  rw [show ("/Teams_" : String).length = 7 from rfl,
    show ("" : String).length = 0 from rfl] at h2
  omega

theorem wrapState_inv (out : BgState × Except String RespVal × List BgState)
    (h : StateInv out.1) : StateInv (wrapState out) := by
  obtain ⟨s, r, b⟩ := out
  cases r with
  | ok v => exact h
  | error e => intro hne; exact h hne

theorem stopRecording_fst (st : BgState) (send : Except String Unit) :
    (stopRecording st send).1 = st := by
  cases send with
  | error e =>
    unfold stopRecording
    split
    · rfl
    · rfl
  | ok u =>
    unfold stopRecording
    split
    · rfl
    · rfl

theorem pauseRecording_inv (st : BgState) (send : Except String Unit)
    (h : StateInv st) : StateInv (pauseRecording st send).1 := by
  unfold pauseRecording
  by_cases hc : st.recordingState ≠ RecState.recording
  · rw [if_pos hc]
    exact h
  · rw [if_neg hc]
    push_neg at hc
    cases send with
    | error e => exact h
    | ok u =>
      intro _
      exact h (by rw [hc]; intro contra; cases contra)

theorem resumeRecording_inv (st : BgState) (send : Except String Unit)
    (h : StateInv st) : StateInv (resumeRecording st send).1 := by
  unfold resumeRecording
  by_cases hc : st.recordingState ≠ RecState.paused
  · rw [if_pos hc]
    exact h
  · rw [if_neg hc]
    push_neg at hc
    cases send with
    | error e => exact h
    | ok u =>
      intro _
      exact h (by rw [hc]; intro contra; cases contra)

theorem handleCallStatus_inv (st : BgState) (a : Bool) (t : String)
    (pc : Option Nat) (tab : Option Nat) (send : Except String Unit)
    (h : StateInv st) : StateInv (handleCallStatus st a t pc tab send).1 := by
  cases tab with
  | none =>
    simp only [handleCallStatus]
    split
    · show StateInv (stopRecording _ send).1
      rw [stopRecording_fst]
      intro hne
      exact h hne
    · intro hne
      exact h hne
  | some tb =>
    simp only [handleCallStatus]
    split
    · show StateInv (stopRecording _ send).1
      rw [stopRecording_fst]
      intro hne
      exact h hne
    · intro hne
      exact h hne

theorem startSendStep_inv (st2 : BgState) (payload : StartPayload)
    (res : Except String WorkerResponse) (h : StateInv st2) :
    StateInv (startSendStep st2 payload res).st := by
  cases res with
  | ok r => exact h
  | error e => intro hne; exact (hne rfl).elim

theorem startRecording_inv (st : BgState) (env : StartEnv) (n : String)
    (h : StateInv st) : StateInv (startRecording st env n).st := by
  unfold startRecording
  by_cases h1 : env.settings.consentAccepted = false
  · rw [if_pos h1]
    exact h
  · rw [if_neg h1]
    by_cases h2 : st.recordingState ≠ RecState.idle
    · rw [if_pos h2]
      exact h
    · rw [if_neg h2]
      cases hres : resolveTeamsTabId st.callTabId env.queryTab with
      | none => exact h
      | some tabId =>
        dsimp only []
        have hst2 : ∀ sid : Option String, StateInv
            (startSendStep
              { st with
                  callTabId := some tabId,
                  recordingState := RecState.recording,
                  recordingStartedAt := some env.nowMs,
                  lastError := "",
                  currentFilename :=
                    makeFilename st.callTitle env.settings.format
                      env.settings.folder env.nowDate }
              ⟨sid, jsOr env.settings.sourceMode "both", env.settings.format,
                env.settings.beepOnStart⟩
              (env.workerSend
                ⟨sid, jsOr env.settings.sourceMode "both", env.settings.format,
                  env.settings.beepOnStart⟩)).st := by
          intro sid
          exact startSendStep_inv _ _ _
            (fun _ => ⟨Option.some_ne_none _, makeFilename_ne_empty _ _ _ _⟩)
        by_cases hm : jsOr env.settings.sourceMode "both" = "mic"
        · rw [if_pos hm]
          cases hE : env.ensureOffscreen with
          | error e => intro hne; exact h hne
          | ok u =>
            cases hN : env.notesWrite with
            | error e =>
              intro _
              exact ⟨Option.some_ne_none _, makeFilename_ne_empty _ _ _ _⟩
            | ok u2 => exact hst2 none
        · rw [if_neg hm]
          cases hS : env.streamIdResult with
          | error e => intro hne; exact h hne
          | ok sid =>
            cases hE : env.ensureOffscreen with
            | error e => intro hne; exact h hne
            | ok u =>
              cases hN : env.notesWrite with
              | error e =>
                intro _
                exact ⟨Option.some_ne_none _, makeFilename_ne_empty _ _ _ _⟩
              | ok u2 => exact hst2 (some sid)

theorem handleFinalized_inv (st : BgState) (env : FinalizeEnv) (fmt : String) :
    StateInv (handleFinalized st env fmt).st := by
  unfold handleFinalized
  cases hA : env.artifactSave with
  | error e => intro hne; exact (hne rfl).elim
  | ok d =>
    cases hS : env.sidecarSave with
    | error e => intro hne; exact (hne rfl).elim
    | ok s =>
      cases hW : env.recordingsWrite with
      | error e => intro hne; exact (hne rfl).elim
      | ok u => intro hne; exact (hne rfl).elim

/-- C2: in every coordinator state reachable through the message handlers
(start, pause, resume, stop, call-status, finalize) from the initial
state, a non-idle recordingState implies a non-null recordingStartedAt
and a non-empty currentFilename. -/
theorem reachable_state_invariant (st : BgState) (h : ReachableBg st) :
    StateInv st := by
  induction h with
  | init => intro hne; exact (hne rfl).elim
  | next hr e ih =>
    cases e with
    | callStatus a t pc tab send =>
      exact wrapState_inv _ (handleCallStatus_inv _ a t pc tab send ih)
    | startMsg env notes =>
      exact wrapState_inv _ (startRecording_inv _ env notes ih)
    | pauseMsg send => exact wrapState_inv _ (pauseRecording_inv _ send ih)
    | resumeMsg send => exact wrapState_inv _ (resumeRecording_inv _ send ih)
    | stopMsg send =>
      refine wrapState_inv _ ?_
      rw [show (stopRecording _ send).1 = _ from stopRecording_fst _ send]
      exact ih
    | finalizedMsg env fmt =>
      exact wrapState_inv _ (handleFinalized_inv _ env fmt)

/-- A start environment that succeeds end to end (used to exhibit a
reachable recording state). -/
def envStartOk : StartEnv :=
  { settings :=
      { sourceMode := "both", format := "webm",
        folder := "TeamsRecordings", beepOnStart := true,
        consentAccepted := true, onScreenBadge := true, notes := "" },
    queryTab := some 4, streamIdResult := Except.ok "sid",
    ensureOffscreen := Except.ok (), nowMs := 99, nowDate := ⟨2026, 1, 2, 3, 4⟩,
    notesWrite := Except.ok (),
    workerSend := fun _ => Except.ok ⟨true, none⟩ }

/-- The coordinator state after one successful START_RECORDING from the
initial state. -/
def startedSt : BgState :=
  coordStep initialState (CoordEvent.startMsg envStartOk "")

theorem reachable_state_invariant_witness :
    startedSt.recordingStartedAt ≠ none ∧ startedSt.currentFilename ≠ "" :=
  reachable_state_invariant startedSt
    (ReachableBg.next ReachableBg.init (CoordEvent.startMsg envStartOk ""))
    (by decide)

end TeamsRecorder
